import Mathlib

/-!
Shallow embedding of the labor-market simulation (src/hwang.py and src/test.py).

Python floats are modelled as rationals (ℚ) wherever the code only performs
field arithmetic, and as reals (ℝ) where `math.log` enters the wage formula.
Python dicts of numeric properties are association lists `List (String × ℚ)`;
a raised `KeyError` / `ZeroDivisionError` / `TypeError` is modelled by an
`Option` result (`none` = the operation raises).
-/

namespace LaborSim

/-- Python `d[key]` read (as an `Option`): first binding of `key`. -/
def propGet? : List (String × ℚ) → String → Option ℚ
  | [], _ => none
  | (k, v) :: rest, key => if k = key then some v else propGet? rest key

/-- Python `d.get(key, dflt)`: defaulted read. -/
def propGetD (p : List (String × ℚ)) (key : String) (dflt : ℚ) : ℚ :=
  (propGet? p key).getD dflt

/-- Python `d[key] = v`: replace the existing binding in place, else append. -/
def propSet : List (String × ℚ) → String → ℚ → List (String × ℚ)
  | [], key, v => [(key, v)]
  | (k, w) :: rest, key, v =>
      if k = key then (k, v) :: rest else (k, w) :: propSet rest key v

/-- Python `key in d`. -/
def propHasKey (p : List (String × ℚ)) (key : String) : Bool :=
  (propGet? p key).isSome

inductive ActorKind
  | base
  | worker
  | employer
  deriving DecidableEq

/-- `Actor` (hwang.py lines 12-27 / test.py lines 11-35): id, open-ended numeric
property map, action log.  `kind` records the Python subclass
(`isinstance` checks in `World.update`); `negotiation_attempts` and `work` are
the extra instance attributes set by the `Worker` subclass / hiring code.
The `Worker.max_attempts` / `Worker.deduction_rate` attributes are the
constants `max_attempts` / `deduction_rate` below; `Employer.workers` is never
written in the sources and is omitted; the `space` back-reference is passed
explicitly as a `World` argument where it is read. -/
structure Actor where
  id : String
  kind : ActorKind
  properties : List (String × ℚ)
  actions : List String
  negotiation_attempts : ℕ
  work : Option String
  deriving DecidableEq

/-- `Environment` (hwang.py lines 30-50): id, property map, manifestation log. -/
structure Environment where
  id : String
  properties : List (String × ℚ)
  manifestations : List String
  deriving DecidableEq

/-- `World` (hwang.py lines 111-132): actor list, environment list, population. -/
structure World where
  actors : List Actor
  environments : List Environment
  population : ℕ
  deriving DecidableEq

/-- `Worker.max_attempts` (hwang.py line 67). -/
def max_attempts : ℕ := 5

/-- `Worker.deduction_rate` (hwang.py line 68). -/
def deduction_rate : ℚ := 5 / 100

/-- `Actor._affect_target` (hwang.py lines 25-27): if this actor's action log
contains "negotiate", add 5 to the target's `stress` (defaulted read). -/
def Actor.affect_target (a : Actor) (target : Actor) : Actor :=
  if "negotiate" ∈ a.actions then
    { target with properties :=
        (propSet target.properties "stress" (propGetD target.properties "stress" 0 + 5)) }
  else target

/-- `Actor.perform_action` (hwang.py lines 20-23) with a target: append the
action tag, then apply `_affect_target`; returns (self, target) after. -/
def Actor.perform_action (a : Actor) (action : String) (target : Actor) :
    Actor × Actor :=
  let a' : Actor := { a with actions := a.actions ++ [action] }
  (a', a'.affect_target target)

/-- First half of `Environment.manifest` (hwang.py lines 36-39): append the
manifestation tag; for "competition_rise", `self.properties["competition"] += 0.1`
is a direct dict access — `none` models the `KeyError` raised when the
`competition` key is absent. -/
def Environment.manifestSelf (e : Environment) (mtype : String) :
    Option Environment :=
  let e1 : Environment := { e with manifestations := e.manifestations ++ [mtype] }
  if mtype = "competition_rise" then
    match propGet? e1.properties "competition" with
    | none => none
    | some c => some { e1 with properties := propSet e1.properties "competition" (c + 1 / 10) }
  else some e1

/-- `Environment._affect_environment` (hwang.py lines 43-45): if this
environment's whole manifestation log contains "competition_rise", the target's
`demand` is multiplied by 0.95 (direct dict access: `none` models `KeyError`). -/
def Environment.affect_environment (e : Environment) (target : Environment) :
    Option Environment :=
  if "competition_rise" ∈ e.manifestations then
    match propGet? target.properties "demand" with
    | none => none
    | some d => some { target with properties := propSet target.properties "demand" (d * (95 / 100)) }
  else some target

/-- `Environment.manifest` (hwang.py lines 36-41): manifest on self, then, when
a target is supplied, apply `_affect_environment` to it. -/
def Environment.manifest (e : Environment) (mtype : String)
    (target : Option Environment) : Option (Environment × Option Environment) :=
  match e.manifestSelf mtype with
  | none => none
  | some e1 =>
    match target with
    | none => some (e1, none)
    | some t =>
      match e1.affect_environment t with
      | none => none
      | some t' => some (e1, some t')

/-- `Environment.affect_actor` (hwang.py lines 47-50): defaulted read of
`competition`; above the 0.7 threshold, add `competition * 10` to the actor's
`stress` (defaulted read). -/
def Environment.affect_actor (e : Environment) (a : Actor) : Actor :=
  let comp := propGetD e.properties "competition" 0
  if 7 / 10 < comp then
    { a with properties :=
        (propSet a.properties "stress" (propGetD a.properties "stress" 0 + comp * 10)) }
  else a

/-- `Worker.__init__` (hwang.py lines 54-68): the property map a fresh Worker
carries, with `employed = False` as 0 and `efficiency = 1.0`. -/
def mkWorker (id : String) (age : ℤ) (distance previous_wage : ℚ) : Actor :=
  { id := id
    kind := ActorKind.worker
    properties := [("age", (age : ℚ)), ("distance", distance),
                   ("previous_wage", previous_wage), ("employed", 0),
                   ("stress", 0), ("efficiency", 1)]
    actions := []
    negotiation_attempts := 0
    work := none }

/-- `Employer.__init__` (hwang.py lines 92-96). -/
def mkEmployer (id : String) (property_size : ℚ) : Actor :=
  { id := id
    kind := ActorKind.employer
    properties := [("property_size", property_size), ("production", 0), ("profit", 0)]
    actions := []
    negotiation_attempts := 0
    work := none }

/-- `Worker._calculate_age_factor` (hwang.py lines 84-88): `(age - 30) * 1000`
below age 30, else 0. -/
def Actor.calculate_age_factor (a : Actor) : ℚ :=
  let age := propGetD a.properties "age" 0
  if age < 30 then (age - 30) * 1000 else 0

/-- `Worker.negotiate_wage` (hwang.py lines 70-82): returns the successor state
and the proposed wage.  Wages are reals because of `math.log`; the property
reads are direct dict accesses on keys the `Worker` constructor always sets. -/
noncomputable def Actor.negotiate_wage (a : Actor) (population : ℕ) : Actor × ℝ :=
  if max_attempts ≤ a.negotiation_attempts then (a, 0)
  else
    let base : ℝ := (propGetD a.properties "previous_wage" 0 : ℚ)
    let distance_factor : ℝ := (propGetD a.properties "distance" 0 : ℚ) * 1000
    let age_factor : ℝ := (a.calculate_age_factor : ℚ)
    let population_factor : ℝ := Real.log ((population : ℝ) + 1) * 1000
    let wage := base + distance_factor + age_factor + population_factor
    let wage := wage * (1 - (deduction_rate : ℝ) * (a.negotiation_attempts : ℕ))
    ({ a with negotiation_attempts := a.negotiation_attempts + 1 }, wage)

/-- The module-scope monkey patch of `Worker.negotiate_wage` in test.py
(lines 430-439): a pure lambda — no population term, no state change; its
trailing `0 if not employed else 0` collapses to 0. -/
def Actor.negotiate_wage_patched (a : Actor) : Actor × ℚ :=
  if a.negotiation_attempts < max_attempts then
    (a, (propGetD a.properties "previous_wage" 0
          + propGetD a.properties "distance" 0 * 1000
          + (if propGetD a.properties "age" 0 < 30
             then (propGetD a.properties "age" 0 - 30) * 1000 else 0))
        * (1 - deduction_rate * (a.negotiation_attempts : ℕ)))
  else (a, 0)

/-- Python `int()` truncation toward zero on a real. -/
noncomputable def pyTrunc (x : ℝ) : ℤ :=
  if 0 ≤ x then ⌊x⌋ else ⌈x⌉

/-- `Employer.calculate_optimal_employment` (hwang.py lines 98-101):
`max(1, int(property_size * 1_000_000 * 0.4 / wage))`.  The division is a
direct float division — `none` models the `ZeroDivisionError` raised when
`wage` is exactly zero. -/
noncomputable def calculate_optimal_employment (property_size : ℚ) (wage : ℝ) :
    Option ℤ :=
  if wage = 0 then none
  else some (max 1 (pyTrunc ((property_size : ℝ) * 1000000 * (4 / 10) / wage)))

/-- `Employer.calculate_profit` (hwang.py lines 103-108): reads `competition`
from the first environment of the employer's world (`self.space`); `none`
models the exception when no environment or no `competition` key exists. -/
noncomputable def calculate_profit (w : World) (wage : ℝ) (num_workers : ℤ) :
    Option ℝ :=
  match w.environments with
  | [] => none
  | e :: _ =>
    match propGet? e.properties "competition" with
    | none => none
    | some comp =>
      let prod_per_worker : ℝ := 3500000 * (1 + (comp : ℝ))
      let production := prod_per_worker * (num_workers : ℤ)
      some (production - (wage * (num_workers : ℤ) + production * (1 / 10)))

/-- Step 1 of `World.update` (hwang.py lines 125-127, test.py lines 187-189):
each environment affects each actor, in environment order. -/
def World.envEffects (w : World) : World :=
  { w with actors := w.environments.foldl (fun acts e => acts.map e.affect_actor) w.actors }

/-- Step 2 of `World.update` (hwang.py lines 129-132, test.py lines 191-195):
actors possessing both `stress` and `efficiency` get
`efficiency = max(0.5, 1.0 - 0.01 * stress)`. -/
def Actor.updateEfficiency (a : Actor) : Actor :=
  if propHasKey a.properties "stress" && propHasKey a.properties "efficiency" then
    let stress := propGetD a.properties "stress" 0
    { a with properties :=
        (propSet a.properties "efficiency" (max (1 / 2) (1 - (1 / 100) * stress))) }
  else a

namespace Hwang

/-- `World.update` in hwang.py (lines 124-132): environment effects, then the
efficiency recomputation.  It has no actor-to-environment feedback step. -/
def update (w : World) : World :=
  { w.envEffects with actors := w.envEffects.actors.map Actor.updateEfficiency }

end Hwang

/-- The employed-worker count inside test.py `World.update` (lines 201-205):
`isinstance(a, Worker) and a.properties.get("employed")` with Python truthiness
(absent or zero `employed` is falsy). -/
def employedCount (actors : List Actor) : ℕ :=
  (actors.filter fun a =>
    decide (a.kind = ActorKind.worker) && decide (propGetD a.properties "employed" 0 ≠ 0)).length

/-- The number of `Employer` instances in an actor list (the feedback loop in
test.py `World.update` runs its body once per such actor). -/
def countEmployers (actors : List Actor) : ℕ :=
  (actors.filter fun a => decide (a.kind = ActorKind.employer)).length

/-- One execution of the feedback body in test.py `World.update`
(lines 201-212): if the world has environments, add `employed_count * 1000` to
the first environment's `supply` and multiply its `demand` by 0.99.  The
`supply` / `demand` reads are direct dict accesses (`none` = `KeyError`). -/
def feedbackOne (w : World) : Option World :=
  match w.environments with
  | [] => some w
  | e0 :: rest =>
    match propGet? e0.properties "supply", propGet? e0.properties "demand" with
    | some s, some d =>
      some { w with environments :=
        ({ e0 with properties :=
            (propSet (propSet e0.properties "supply" (s + (employedCount w.actors : ℕ) * 1000))
              "demand" (d * (99 / 100))) } :: rest) }
    | _, _ => none

/-- One iteration of the `for actor in self.actors` feedback loop in test.py
`World.update` (lines 197-212): the body runs only for `Employer` actors. -/
def feedbackStep (acc : Option World) (a : Actor) : Option World :=
  acc.bind fun w => if a.kind = ActorKind.employer then feedbackOne w else some w

/-- The full feedback loop of test.py `World.update` (lines 197-212). -/
def feedbackLoop (w : World) : Option World :=
  w.actors.foldl feedbackStep (some w)

namespace TestPy

/-- `World.update` in test.py (lines 184-212): the two steps shared with
hwang.py, then the per-`Employer` feedback loop. -/
def update (w : World) : Option World :=
  feedbackLoop (Hwang.update w)

end TestPy

/-- The negotiation attempt loop of `run_simulation` (hwang.py lines 176-195)
for one worker: `ei` / `wi` are the employer's / worker's indices in
`world.actors` (Python mutates those shared objects in place), the fuel is the
remaining `range(worker.max_attempts)` iterations.  `none` models an exception
escaping the loop (zero-wage division, missing environment data). -/
noncomputable def negotiateOne (ei wi : ℕ) : ℕ → World → Option World
  | 0, w => some w
  | n + 1, w =>
    match w.actors.get? wi, w.actors.get? ei with
    | some worker, some emp =>
      let nres := worker.negotiate_wage w.population
      let w1 : World := { w with actors := w.actors.set wi nres.1 }
      match calculate_optimal_employment (propGetD emp.properties "property_size" 0) nres.2 with
      | none => none
      | some optimal =>
        match calculate_profit w1 nres.2 optimal with
        | none => none
        | some profit =>
          if 0 < profit then
            let pr := emp.perform_action "negotiate" nres.1
            let hired : Actor :=
              { pr.2 with properties := (propSet pr.2.properties "employed" 1),
                          work := some "생산" }
            some { w1 with actors := ((w1.actors.set ei pr.1).set wi hired) }
          else negotiateOne ei wi n w1
    | _, _ => none

/-- The `env1.manifest("competition_rise", target=env2)` call of
`run_simulation` (hwang.py line 174): `env1` / `env2` alias the first two
world environments. -/
def manifestStep (w : World) : Option World :=
  match w.environments with
  | e1 :: e2 :: rest =>
    match e1.manifest "competition_rise" (some e2) with
    | none => none
    | some (e1', t) => some { w with environments := (e1' :: t.getD e2 :: rest) }
  | _ => none

namespace Hwang

/-- The actor-creation prefix of one `run_simulation` tick iteration
(hwang.py lines 160-172): `worker_count` fresh workers (`age=20+j`,
`distance=1.0+j`) and a fresh employer are built and added to the world. -/
def tickSetup (initial_wage : ℚ) (worker_count : ℕ) (w : World) : World :=
  { w with actors := ((w.actors ++ [mkEmployer "employer1" 1000]) ++
      ((List.range worker_count).map fun (j : ℕ) =>
        mkWorker ("worker" ++ toString (j + 1)) ((20 : ℤ) + (j : ℤ)) (1 + (j : ℚ)) initial_wage)) }

/-- One iteration of the `for i in range(sim_count)` loop of hwang.py
`run_simulation` (lines 157-198): build `worker_count` fresh workers and a
fresh employer, add them to the world, manifest, negotiate per worker, then
`world.update()`. -/
noncomputable def tick (initial_wage : ℚ) (worker_count : ℕ) (w : World) :
    Option World :=
  let ei := w.actors.length
  match manifestStep (tickSetup initial_wage worker_count w) with
  | none => none
  | some w3 =>
    match (List.range worker_count).foldl
        (fun acc j => acc.bind (negotiateOne ei (ei + 1 + j) max_attempts)) (some w3) with
    | none => none
    | some w4 => some (update w4)

/-- The world state of hwang.py `run_simulation` just before the tick loop
(lines 144-155): no actors, the two environments, the input population. -/
def initWorld (market_competition : ℚ) (initial_population : ℕ) : World :=
  { actors := []
    environments :=
      [{ id := "market"
         properties := [("demand", 1000), ("supply", 800), ("competition", market_competition)]
         manifestations := [] },
       { id := "secondary"
         properties := [("demand", 900), ("supply", 850), ("competition", 3 / 10)]
         manifestations := [] }]
    population := initial_population }

/-- hwang.py `run_simulation` (lines 135-206), reduced to its world-state
evolution: the log strings are presentation only; `none` models a run aborted
by the blanket `except` clause. -/
noncomputable def run (market_competition initial_wage : ℚ)
    (sim_count initial_population worker_count : ℕ) : Option World :=
  (List.range sim_count).foldl
    (fun acc _ => acc.bind (tick initial_wage worker_count))
    (some (initWorld market_competition initial_population))

end Hwang

/-- A sequence of `Worker.negotiate_wage` calls (hwang.py version), one
population argument per call; returns the final worker state. -/
noncomputable def negotiateSeq (a : Actor) : List ℕ → Actor
  | [] => a
  | p :: ps => negotiateSeq (a.negotiate_wage p).1 ps

/-- The first environment's `demand`, read as the feedback step does. -/
def firstDemand (w : World) : Option ℚ :=
  match w.environments with
  | [] => none
  | e :: _ => propGet? e.properties "demand"

/-- A fresh worker as built by hwang.py `run_simulation` with
`initial_wage = 3000000` (worker1 of the default configuration). -/
def w1Fresh : Actor := mkWorker "worker1" 25 1 3000000

/-- worker1 of hwang.py `run_simulation` for `initial_wage = 9000`: age 20,
distance 1.0 (the C3 failing input). -/
def w1LowWage : Actor := mkWorker "worker1" 20 1 9000

/-- A worker whose attempt counter has reached `max_attempts`. -/
def wExhausted : Actor := { mkWorker "worker1" 25 1 3000000 with negotiation_attempts := 5 }

/-- A worker whose wage components sum to zero: previous wage 0, distance 0,
age 30 (age factor 0); with population 0 the population factor is ln 1 = 0. -/
def wZeroSum : Actor := mkWorker "w0" 30 0 0

/-- The world state of `run_simulation(0.5, 9000, 1, 0, 1)` right after the
tick's `manifest` call, just before the negotiation loop. -/
def c3MidWorld : World :=
  { actors := [mkEmployer "employer1" 1000, w1LowWage]
    environments :=
      [{ id := "market"
         properties := [("demand", 1000), ("supply", 800), ("competition", 1 / 2 + 1 / 10)]
         manifestations := ["competition_rise"] },
       { id := "secondary"
         properties := [("demand", 900 * (95 / 100)), ("supply", 850), ("competition", 3 / 10)]
         manifestations := [] }]
    population := 0 }

/-- The primary market environment of `run_simulation` at competition 0.5. -/
def marketEnv : Environment :=
  { id := "market"
    properties := [("demand", 1000), ("supply", 800), ("competition", 1 / 2)]
    manifestations := [] }

/-- The secondary environment of `run_simulation`. -/
def secondaryEnv : Environment :=
  { id := "secondary"
    properties := [("demand", 900), ("supply", 850), ("competition", 3 / 10)]
    manifestations := [] }

/-- `marketEnv` after `manifest("competition_rise")`: competition raised by
0.1, the event logged. -/
def marketAfterRise : Environment :=
  { id := "market"
    properties := [("demand", 1000), ("supply", 800), ("competition", 1 / 2 + 1 / 10)]
    manifestations := ["competition_rise"] }

/-- `secondaryEnv` after being the target of a `competition_rise` spillover. -/
def secondaryAfterRise : Environment :=
  { id := "secondary"
    properties := [("demand", 900 * (95 / 100)), ("supply", 850), ("competition", 3 / 10)]
    manifestations := [] }

/-- `marketAfterRise` after a further, unrelated `manifest("policy_change")`:
only the log grows. -/
def marketAfterPolicy : Environment :=
  { id := "market"
    properties := [("demand", 1000), ("supply", 800), ("competition", 1 / 2 + 1 / 10)]
    manifestations := ["competition_rise", "policy_change"] }

/-- `secondaryAfterRise` after being the target of the unrelated
`policy_change` manifestation: its demand is multiplied by 0.95 again, because
the manifestation log still contains `competition_rise`. -/
def secondaryAfterPolicy : Environment :=
  { id := "secondary"
    properties := [("demand", 900 * (95 / 100) * (95 / 100)), ("supply", 850),
                   ("competition", 3 / 10)]
    manifestations := [] }

/-- A world holding two Employers (as test.py `run_simulation` produces after
its second tick iteration, each iteration adding `employer1` anew). -/
def twoEmployerWorld : World :=
  { actors := [mkEmployer "employer1" 1000, mkEmployer "employer1" 1000]
    environments := [marketEnv]
    population := 0 }

/-- A world with one employer and one employed worker. -/
def oneEmployerWorld : World :=
  { actors := [mkEmployer "employer1" 1000,
               { mkWorker "worker1" 25 1 3000000 with
                  properties := (propSet (mkWorker "worker1" 25 1 3000000).properties "employed" 1) }]
    environments := [marketEnv]
    population := 0 }

/-- A world with a single fresh worker (both `stress` and `efficiency` keys). -/
def oneWorkerWorld : World :=
  { actors := [mkWorker "w1" 25 1 3000000]
    environments := [marketEnv]
    population := 0 }

/-- An environment with an empty property map (no `competition` key). -/
def bareEnv : Environment := { id := "bare", properties := [], manifestations := [] }

/-- An actor that has performed a "negotiate" action. -/
def negotiator : Actor :=
  { id := "employer1"
    kind := ActorKind.employer
    properties := []
    actions := ["negotiate"]
    negotiation_attempts := 0
    work := none }

/-- The world hwang.py `run_simulation(0.5, 3000000, 1, 0, 0)` ends with: one
employer added during the single tick iteration, `competition_rise` applied
(market competition 0.6, secondary demand 855). -/
def c8FinalWorld : World :=
  { actors := [mkEmployer "employer1" 1000]
    environments :=
      [{ id := "market"
         properties := [("demand", 1000), ("supply", 800), ("competition", 1 / 2 + 1 / 10)]
         manifestations := ["competition_rise"] },
       { id := "secondary"
         properties := [("demand", 900 * (95 / 100)), ("supply", 850), ("competition", 3 / 10)]
         manifestations := [] }]
    population := 0 }

/-! ### Association-list lemmas -/

theorem propGet?_propSet_self (p : List (String × ℚ)) (k : String) (v : ℚ) :
    propGet? (propSet p k v) k = some v := by
  induction p with
  | nil => simp [propSet, propGet?]
  | cons hd tl ih =>
    obtain ⟨k0, v0⟩ := hd
    by_cases h : k0 = k
    · simp [propSet, h, propGet?]
    · simp [propSet, h, propGet?, ih]

theorem propGet?_propSet_ne (p : List (String × ℚ)) (k k' : String) (v : ℚ)
    (h : k' ≠ k) : propGet? (propSet p k v) k' = propGet? p k' := by
  induction p with
  | nil => simp [propSet, propGet?, Ne.symm h]
  | cons hd tl ih =>
    obtain ⟨k0, v0⟩ := hd
    by_cases h0 : k0 = k
    · subst h0
      simp [propSet, propGet?, Ne.symm h]
    · simp [propSet, h0, propGet?, ih]

theorem propGetD_propSet_self (p : List (String × ℚ)) (k : String) (v d : ℚ) :
    propGetD (propSet p k v) k d = v := by
  rw [propGetD, propGet?_propSet_self]
  rfl

theorem propGetD_propSet_ne (p : List (String × ℚ)) (k k' : String) (v d : ℚ)
    (h : k' ≠ k) : propGetD (propSet p k v) k' d = propGetD p k' d := by
  rw [propGetD, propGet?_propSet_ne _ _ _ _ h, propGetD]

/-! ### C10 -/

/-- C10: for `num_workers ≥ 1` and a `competition` value read from the first
environment, `calculate_profit(wage, num_workers)` equals
`num_workers * (3,500,000 * (1 + competition) * 0.9 - wage)`, and the sign of
that profit is independent of the headcount. -/
theorem C10_profit_linear (w : World) (e : Environment) (rest : List Environment)
    (comp : ℚ) (wage : ℝ) (n : ℤ)
    (henv : w.environments = e :: rest)
    (hcomp : propGet? e.properties "competition" = some comp)
    (hn : 1 ≤ n) :
    calculate_profit w wage n
      = some ((n : ℝ) * (3500000 * (1 + (comp : ℝ)) * (9 / 10) - wage)) ∧
    (0 < (n : ℝ) * (3500000 * (1 + (comp : ℝ)) * (9 / 10) - wage) ↔
      0 < 3500000 * (1 + (comp : ℝ)) * (9 / 10) - wage) := by
  have hn' : (0 : ℝ) < (n : ℝ) := by exact_mod_cast lt_of_lt_of_le Int.zero_lt_one hn
  constructor
  · simp only [calculate_profit, henv, hcomp]
    congr 1
    ring
  · constructor
    · intro h
      by_contra hneg
      push_neg at hneg
      nlinarith
    · intro h
      exact mul_pos hn' h

/-- Witness for C10 at the default market environment and two workers. -/
theorem C10_profit_linear_witness :
    calculate_profit { actors := [], environments := [marketEnv], population := 0 } 1000000 2
      = some ((2 : ℝ) * (3500000 * (1 + ((1 / 2 : ℚ) : ℝ)) * (9 / 10) - 1000000)) :=
  (C10_profit_linear _ marketEnv [] (1 / 2) 1000000 2 rfl rfl (by decide)).1

/-! ### C4 -/

/-- C4: `negotiation_attempts` never exceeds `max_attempts` (5) under any
sequence of `negotiate_wage` calls, and a call made at or beyond the limit
returns 0 and leaves the worker unchanged — for hwang.py's method and for the
test.py monkey-patched method alike. -/
theorem C4_attempts_invariant :
    (∀ (a : Actor) (ps : List ℕ), a.negotiation_attempts ≤ max_attempts →
      (negotiateSeq a ps).negotiation_attempts ≤ max_attempts)
    ∧ (∀ (a : Actor) (population : ℕ), max_attempts ≤ a.negotiation_attempts →
      a.negotiate_wage population = (a, 0))
    ∧ (∀ a : Actor, max_attempts ≤ a.negotiation_attempts →
      a.negotiate_wage_patched = (a, 0)) := by
  refine ⟨?_, ?_, ?_⟩
  · intro a ps
    induction ps generalizing a with
    | nil => exact fun h => h
    | cons p ps ih =>
      intro h
      rw [negotiateSeq]
      apply ih
      by_cases hle : max_attempts ≤ a.negotiation_attempts
      · rw [Actor.negotiate_wage, if_pos hle]
        exact h
      · rw [Actor.negotiate_wage, if_neg hle]
        simp only [max_attempts] at *
        omega
  · intro a population h
    rw [Actor.negotiate_wage, if_pos h]
  · intro a h
    rw [Actor.negotiate_wage_patched, if_neg (by omega)]

/-- Witness for C4: seven calls on a fresh worker stay within the limit, and a
call on an exhausted worker returns (unchanged, 0). -/
theorem C4_attempts_invariant_witness :
    (negotiateSeq w1Fresh [7, 7, 7, 7, 7, 7, 7]).negotiation_attempts ≤ max_attempts
    ∧ Actor.negotiate_wage wExhausted 3 = (wExhausted, 0) :=
  ⟨C4_attempts_invariant.1 w1Fresh _ (by decide),
   C4_attempts_invariant.2.1 wExhausted 3 (by decide)⟩

/-! ### C1 -/

/-- Reading the age factor is insensitive to the attempt counter. -/
theorem calculate_age_factor_attempts (a : Actor) (n : ℕ) :
    Actor.calculate_age_factor { a with negotiation_attempts := n }
      = a.calculate_age_factor := rfl

/-- C1 counterexample: in test.py, the module-scope monkey patch replaces
`Worker.negotiate_wage`; calling it on a fresh worker (attempt counter 0, well
below `max_attempts`) does not increment `negotiation_attempts`. -/
theorem C1_cex :
    w1Fresh.negotiation_attempts < max_attempts ∧
    ¬ ((w1Fresh.negotiate_wage_patched).1.negotiation_attempts
        = w1Fresh.negotiation_attempts + 1) := by
  constructor
  · decide
  · intro h
    rw [Actor.negotiate_wage_patched, if_pos (by decide)] at h
    exact absurd h (by decide)

/-- C1 amended: hwang.py's `Worker.negotiate_wage` increments the counter by
exactly 1 and returns the stated wage; the test.py monkey-patched method never
changes the worker's state (and its wage has no population term). -/
theorem C1_negotiate_amended :
    (∀ (a : Actor) (population : ℕ), a.negotiation_attempts < max_attempts →
      a.negotiate_wage population =
        ({ a with negotiation_attempts := a.negotiation_attempts + 1 },
          (((propGetD a.properties "previous_wage" 0 : ℚ) : ℝ)
            + ((propGetD a.properties "distance" 0 : ℚ) : ℝ) * 1000
            + ((a.calculate_age_factor : ℚ) : ℝ)
            + Real.log ((population : ℝ) + 1) * 1000)
          * (1 - (5 / 100) * ((a.negotiation_attempts : ℕ) : ℝ))))
    ∧ (∀ a : Actor, (a.negotiate_wage_patched).1 = a) := by
  constructor
  · intro a population h
    rw [Actor.negotiate_wage, if_neg (Nat.not_le.mpr h)]
    norm_num [deduction_rate]
  · intro a
    by_cases h : a.negotiation_attempts < max_attempts
    · rw [Actor.negotiate_wage_patched, if_pos h]
    · rw [Actor.negotiate_wage_patched, if_neg h]

/-- Witness for C1 (amended), at a fresh worker and population 0. -/
theorem C1_negotiate_amended_witness :
    Actor.negotiate_wage w1Fresh 0 =
      ({ w1Fresh with negotiation_attempts := w1Fresh.negotiation_attempts + 1 },
        (((propGetD w1Fresh.properties "previous_wage" 0 : ℚ) : ℝ)
          + ((propGetD w1Fresh.properties "distance" 0 : ℚ) : ℝ) * 1000
          + ((w1Fresh.calculate_age_factor : ℚ) : ℝ)
          + Real.log (((0 : ℕ) : ℝ) + 1) * 1000)
        * (1 - (5 / 100) * ((w1Fresh.negotiation_attempts : ℕ) : ℝ))) :=
  C1_negotiate_amended.1 w1Fresh 0 (by decide)

/-! ### C6 -/

/-- C6 counterexample: for a worker whose wage components sum to zero
(previous wage 0, distance 0, age 30, population 0), consecutive attempts both
return 0, so the second is not strictly smaller. -/
theorem C6_cex :
    ¬ (((wZeroSum.negotiate_wage 0).1.negotiate_wage 0).2
        < (wZeroSum.negotiate_wage 0).2) := by
  have h1 : wZeroSum.negotiate_wage 0 = ({ wZeroSum with negotiation_attempts := 1 }, 0) := by
    rw [Actor.negotiate_wage, if_neg (by decide)]
    simp [wZeroSum, mkWorker, propGetD, propGet?, Actor.calculate_age_factor, Real.log_one]
  have h2 : ({ wZeroSum with negotiation_attempts := 1 } : Actor).negotiate_wage 0
      = ({ wZeroSum with negotiation_attempts := 2 }, 0) := by
    rw [Actor.negotiate_wage, if_neg (by decide)]
    simp [wZeroSum, mkWorker, propGetD, propGet?, Actor.calculate_age_factor, Real.log_one]
  rw [h1]
  show ¬ (({ wZeroSum with negotiation_attempts := 1 } : Actor).negotiate_wage 0).2 < 0
  rw [h2]
  exact lt_irrefl 0

/-- C6 amended: consecutive `negotiate_wage` attempts (with identical other
inputs) yield strictly decreasing wages, *provided* the undiscounted component
sum (previous_wage + distance·1000 + age factor + population factor) is
positive; when that sum is 0 consecutive proposals are equal, and when it is
negative they increase. -/
theorem C6_wage_decreasing_amended (a : Actor) (population : ℕ)
    (hk : a.negotiation_attempts + 1 < max_attempts)
    (hpos : 0 < (((propGetD a.properties "previous_wage" 0 : ℚ) : ℝ)
      + ((propGetD a.properties "distance" 0 : ℚ) : ℝ) * 1000
      + ((a.calculate_age_factor : ℚ) : ℝ)
      + Real.log ((population : ℝ) + 1) * 1000)) :
    ((a.negotiate_wage population).1.negotiate_wage population).2
      < (a.negotiate_wage population).2 := by
  have h1 : ¬ max_attempts ≤ a.negotiation_attempts := by
    simp only [max_attempts] at *
    omega
  have h2 : ¬ max_attempts ≤ a.negotiation_attempts + 1 := by
    simp only [max_attempts] at *
    omega
  simp only [Actor.negotiate_wage, if_neg h1, calculate_age_factor_attempts]
  simp only [h1, h2, if_false, ite_false, if_neg]
  refine mul_lt_mul_of_pos_left ?_ hpos
  have hdr : (0 : ℝ) < ((deduction_rate : ℚ) : ℝ) := by norm_num [deduction_rate]
  push_cast
  nlinarith [hdr]

/-- Witness for C6 (amended): a fresh default worker has a positive component
sum, so its second proposal is strictly below its first. -/
theorem C6_wage_decreasing_amended_witness :
    ((w1Fresh.negotiate_wage 0).1.negotiate_wage 0).2 < (w1Fresh.negotiate_wage 0).2 :=
  C6_wage_decreasing_amended w1Fresh 0 (by decide)
    (by
      simp [w1Fresh, mkWorker, propGetD, propGet?, Actor.calculate_age_factor, Real.log_one]
      norm_num)

/-! ### C3 -/

/-- C3: at the failing input (initial_wage 9000, population 0), worker1's
first `negotiate_wage` returns exactly 0; passing that 0 to
`calculate_optimal_employment` hits the unguarded division by `wage`
(modelled as `none` = `ZeroDivisionError`); and the whole
`run_simulation(0.5, 9000, 1, 0, 1)` consequently aborts into the blanket
`except` handler: the callers do not implement the zero/negative-wage
instant-reject the spec requires. -/
theorem C3_zero_wage :
    (w1LowWage.negotiate_wage 0).2 = 0 ∧
    calculate_optimal_employment 1000 0 = none ∧
    Hwang.run (1 / 2) 9000 1 0 1 = none := by
  have hwage : w1LowWage.negotiate_wage 0
      = ({ w1LowWage with negotiation_attempts := 1 }, 0) := by
    rw [Actor.negotiate_wage, if_neg (by decide)]
    simp [w1LowWage, mkWorker, propGetD, propGet?, Actor.calculate_age_factor, Real.log_one]
    norm_num
  have hopt : calculate_optimal_employment 1000 0 = none := by
    rw [calculate_optimal_employment, if_pos rfl]
  refine ⟨by rw [hwage], hopt, ?_⟩
  have hts : ("worker" ++ toString (0 + 1) : String) = "worker1" := rfl
  have h1 : manifestStep (Hwang.tickSetup 9000 1 (Hwang.initWorld (1 / 2) 0))
      = some c3MidWorld := by
    simp [Hwang.tickSetup, Hwang.initWorld, manifestStep, Environment.manifest,
      Environment.manifestSelf, Environment.affect_environment, mkWorker, mkEmployer,
      propGet?, propSet, List.range_succ, hts, c3MidWorld, w1LowWage]
  have hneg : negotiateOne 0 1 max_attempts c3MidWorld = none := by
    have hg1 : c3MidWorld.actors.get? 1 = some w1LowWage := rfl
    have hg0 : c3MidWorld.actors.get? 0 = some (mkEmployer "employer1" 1000) := rfl
    rw [show max_attempts = 4 + 1 from rfl]
    simp [negotiateOne, hg1, hg0, hwage, hopt, mkEmployer, propGetD, propGet?, c3MidWorld]
  have htick : Hwang.tick 9000 1 (Hwang.initWorld (1 / 2) 0) = none := by
    have hlen : (Hwang.initWorld (1 / 2) 0).actors.length = 0 := rfl
    simp only [Hwang.tick, hlen, h1, List.range_succ, List.range_zero, List.nil_append,
      List.foldl_cons, List.foldl_nil, Option.bind]
    norm_num [hneg]
  rw [show Hwang.run (1 / 2) 9000 1 0 1
      = Hwang.tick 9000 1 (Hwang.initWorld (1 / 2) 0) from rfl, htick]

/-! ### C9 -/

/-- C9 counterexample: `manifest("competition_rise")` on an environment with
no `competition` key is a direct dict access, not a defaulted one — it raises
`KeyError` (modelled as `none`) instead of treating the key as 0. -/
theorem C9_cex : bareEnv.manifest "competition_rise" none = none := rfl

/-- C9 amended: the lookups in `_affect_target` and `affect_actor` are
defaulted (absent `stress`/`competition` read as 0, and the operation
completes), but `manifest("competition_rise")` on an environment without
`competition`, and the demand spillover on a target without `demand`, raise
`KeyError`. -/
theorem C9_defaulted_amended :
    (∀ a t : Actor, "negotiate" ∈ a.actions → propGet? t.properties "stress" = none →
      propGet? (a.affect_target t).properties "stress" = some 5)
    ∧ (∀ (e : Environment) (a : Actor), propGet? e.properties "competition" = none →
      e.affect_actor a = a)
    ∧ (∀ e : Environment, propGet? e.properties "competition" = none →
      e.manifestSelf "competition_rise" = none)
    ∧ (∀ e t : Environment, "competition_rise" ∈ e.manifestations →
      propGet? t.properties "demand" = none → e.affect_environment t = none) := by
  refine ⟨?_, ?_, ?_, ?_⟩
  · intro a t hmem hnone
    rw [Actor.affect_target, if_pos hmem]
    show propGet? (propSet t.properties "stress" (propGetD t.properties "stress" 0 + 5))
      "stress" = some 5
    rw [propGet?_propSet_self, propGetD, hnone]
    norm_num
  · intro e a hnone
    rw [Environment.affect_actor]
    norm_num [propGetD, hnone]
  · intro e hnone
    simp [Environment.manifestSelf, hnone]
  · intro e t hmem hnone
    simp [Environment.affect_environment, hmem, hnone]

/-- Witness for C9 (amended): an actor with a logged "negotiate" action raises
a stress-free employer's `stress` to 5 without error. -/
theorem C9_defaulted_amended_witness :
    propGet? ((negotiator.affect_target (mkEmployer "employer2" 5)).properties) "stress"
      = some 5 :=
  C9_defaulted_amended.1 negotiator (mkEmployer "employer2" 5) (by decide) rfl

/-! ### C5 -/

/-- C5 counterexample: after `competition_rise` on env1 targeting env2
(demand 900 → 855), a subsequent manifest of the unrelated type
`policy_change` on env1 with target env2 multiplies env2's demand by 0.95
again (855 → 812.25): the spillover is keyed off the whole manifestation log,
so it does recur. -/
theorem C5_cex :
    marketEnv.manifest "competition_rise" (some secondaryEnv)
      = some (marketAfterRise, some secondaryAfterRise) ∧
    marketAfterRise.manifest "policy_change" (some secondaryAfterRise)
      = some (marketAfterPolicy, some secondaryAfterPolicy) ∧
    propGet? secondaryAfterPolicy.properties "demand"
      = some (900 * (95 / 100) * (95 / 100)) ∧
    (900 * (95 / 100) * (95 / 100) : ℚ) ≠ 900 * (95 / 100) :=
  ⟨rfl, rfl, rfl, by norm_num⟩

/-- C5 amended: `manifest("competition_rise")` on env1 targeting env2 raises
env1.competition by exactly 0.1 and multiplies env2.demand by exactly 0.95;
but a subsequent manifest on env1 with any unrelated type and a target still
multiplies the target's demand by 0.95 (the log retains `competition_rise`),
while leaving env1's properties (hence its competition) unchanged. -/
theorem C5_manifest_amended (e1 e2 e2' : Environment) (c d d' : ℚ) (t : String)
    (hc : propGet? e1.properties "competition" = some c)
    (hd : propGet? e2.properties "demand" = some d)
    (hd' : propGet? e2'.properties "demand" = some d')
    (ht : t ≠ "competition_rise") :
    ∃ e1a e2a e1b e2b,
      e1.manifest "competition_rise" (some e2) = some (e1a, some e2a) ∧
      propGet? e1a.properties "competition" = some (c + 1 / 10) ∧
      propGet? e2a.properties "demand" = some (d * (95 / 100)) ∧
      e1a.manifest t (some e2') = some (e1b, some e2b) ∧
      e1b.properties = e1a.properties ∧
      propGet? e2b.properties "demand" = some (d' * (95 / 100)) := by
  have hmem : "competition_rise" ∈ e1.manifestations ++ ["competition_rise"] :=
    List.mem_append_right _ (List.mem_singleton.mpr rfl)
  have hm1 : e1.manifestSelf "competition_rise"
      = some { e1 with manifestations := e1.manifestations ++ ["competition_rise"],
                       properties := propSet e1.properties "competition" (c + 1 / 10) } := by
    simp only [Environment.manifestSelf, if_pos rfl, hc, ite_true]
  have ha1 : Environment.affect_environment
      { e1 with manifestations := e1.manifestations ++ ["competition_rise"],
                properties := propSet e1.properties "competition" (c + 1 / 10) } e2
      = some { e2 with properties := propSet e2.properties "demand" (d * (95 / 100)) } := by
    simp only [Environment.affect_environment, hd]
    rw [if_pos hmem]
  have hm2 : Environment.manifestSelf
      { e1 with manifestations := e1.manifestations ++ ["competition_rise"],
                properties := propSet e1.properties "competition" (c + 1 / 10) } t
      = some { e1 with manifestations := (e1.manifestations ++ ["competition_rise"]) ++ [t],
                       properties := propSet e1.properties "competition" (c + 1 / 10) } := by
    simp only [Environment.manifestSelf, if_neg ht]
  have ha2 : Environment.affect_environment
      { e1 with manifestations := (e1.manifestations ++ ["competition_rise"]) ++ [t],
                properties := propSet e1.properties "competition" (c + 1 / 10) } e2'
      = some { e2' with properties := propSet e2'.properties "demand" (d' * (95 / 100)) } := by
    simp only [Environment.affect_environment, hd']
    rw [if_pos (List.mem_append_left _ hmem)]
  refine ⟨{ e1 with manifestations := e1.manifestations ++ ["competition_rise"], properties := propSet e1.properties "competition" (c + 1 / 10) },
          { e2 with properties := propSet e2.properties "demand" (d * (95 / 100)) },
          { e1 with manifestations := (e1.manifestations ++ ["competition_rise"]) ++ [t], properties := propSet e1.properties "competition" (c + 1 / 10) },
          { e2' with properties := propSet e2'.properties "demand" (d' * (95 / 100)) },
          ?_, ?_, ?_, ?_, rfl, ?_⟩
  · simp only [Environment.manifest, hm1, ha1]
  · exact propGet?_propSet_self _ _ _
  · exact propGet?_propSet_self _ _ _
  · simp only [Environment.manifest, hm2, ha2]
  · exact propGet?_propSet_self _ _ _

/-- Witness for C5 (amended) at the two `run_simulation` environments, with
`policy_change` as the unrelated type. -/
theorem C5_manifest_amended_witness :
    ∃ e1a e2a e1b e2b,
      marketEnv.manifest "competition_rise" (some secondaryEnv) = some (e1a, some e2a) ∧
      propGet? e1a.properties "competition" = some (1 / 2 + 1 / 10) ∧
      propGet? e2a.properties "demand" = some (900 * (95 / 100)) ∧
      e1a.manifest "policy_change" (some secondaryAfterRise) = some (e1b, some e2b) ∧
      e1b.properties = e1a.properties ∧
      propGet? e2b.properties "demand" = some (900 * (95 / 100) * (95 / 100)) :=
  C5_manifest_amended marketEnv secondaryEnv secondaryAfterRise (1 / 2) 900 (900 * (95 / 100))
    "policy_change" rfl rfl rfl (by decide)

/-! ### C2 -/

theorem countEmployers_cons_emp (a : Actor) (l : List Actor)
    (h : a.kind = ActorKind.employer) :
    countEmployers (a :: l) = countEmployers l + 1 := by
  simp [countEmployers, List.filter_cons, h]

theorem countEmployers_cons_ne (a : Actor) (l : List Actor)
    (h : ¬ a.kind = ActorKind.employer) :
    countEmployers (a :: l) = countEmployers l := by
  simp [countEmployers, List.filter_cons, h]

/-- One feedback execution: supply grows by the employed count × 1000 and
demand is multiplied by 0.99 on the first environment. -/
theorem feedbackOne_spec (w : World) (e0 : Environment) (rest : List Environment)
    (s d : ℚ) (cnt : ℕ)
    (hcnt : employedCount w.actors = cnt)
    (henv : w.environments = e0 :: rest)
    (hs : propGet? e0.properties "supply" = some s)
    (hd : propGet? e0.properties "demand" = some d) :
    feedbackOne w = some { w with environments :=
      ({ e0 with properties := (propSet (propSet e0.properties "supply" (s + (cnt : ℚ) * 1000))
          "demand" (d * (99 / 100))) } :: rest) } := by
  simp only [feedbackOne, henv, hs, hd, hcnt]

/-- The feedback loop runs once per `Employer` in the iterated list: supply
grows once per employer and demand is multiplied by 0.99 once per employer. -/
theorem feedbackFold_spec (l : List Actor) (cnt : ℕ) (w : World) (e0 : Environment)
    (rest : List Environment) (s d : ℚ)
    (hcnt : employedCount w.actors = cnt)
    (henv : w.environments = e0 :: rest)
    (hs : propGet? e0.properties "supply" = some s)
    (hd : propGet? e0.properties "demand" = some d) :
    ∃ e0', l.foldl feedbackStep (some w) = some { w with environments := (e0' :: rest) } ∧
      propGet? e0'.properties "supply"
        = some (s + (countEmployers l : ℚ) * (cnt : ℚ) * 1000) ∧
      propGet? e0'.properties "demand" = some (d * (99 / 100) ^ countEmployers l) ∧
      e0'.id = e0.id := by
  induction l generalizing w e0 s d with
  | nil =>
    refine ⟨e0, ?_, ?_, ?_, rfl⟩
    · rw [List.foldl_nil, ← henv]
    · rw [hs]
      simp [countEmployers]
    · rw [hd]
      simp [countEmployers]
  | cons a l ih =>
    rw [List.foldl_cons]
    by_cases hk : a.kind = ActorKind.employer
    · have hstep : feedbackStep (some w) a = feedbackOne w := by
        simp [feedbackStep, hk]
      rw [hstep, feedbackOne_spec w e0 rest s d cnt hcnt henv hs hd]
      obtain ⟨e0', hfold, hs2, hd2, hid⟩ :=
        ih
          { w with environments :=
            ({ e0 with properties := (propSet (propSet e0.properties "supply" (s + (cnt : ℚ) * 1000)) "demand" (d * (99 / 100))) } :: rest) }
          { e0 with properties := (propSet (propSet e0.properties "supply" (s + (cnt : ℚ) * 1000)) "demand" (d * (99 / 100))) }
          (s + (cnt : ℚ) * 1000) (d * (99 / 100))
          hcnt rfl
          (by rw [propGet?_propSet_ne _ _ _ _ (by decide), propGet?_propSet_self])
          (propGet?_propSet_self _ _ _)
      refine ⟨e0', hfold, ?_, ?_, hid⟩
      · rw [hs2, countEmployers_cons_emp a l hk]
        congr 1
        push_cast
        ring
      · rw [hd2, countEmployers_cons_emp a l hk]
        congr 1
        ring
    · have hstep : feedbackStep (some w) a = some w := by
        simp [feedbackStep, hk]
      rw [hstep, countEmployers_cons_ne a l hk]
      exact ih w e0 s d hcnt henv hs hd

/-- C2 amended: hwang.py's `World.update` has no feedback step at all (its
environments are untouched); test.py's `World.update` executes the feedback
once per `Employer` in the actor list — supply grows by
(#employers × employed_count × 1000) and demand is multiplied by
0.99^#employers, so it matches the claim only when the world holds exactly
one Employer. -/
theorem C2_feedback_amended (w : World) (e0 : Environment) (rest : List Environment)
    (s d : ℚ)
    (henv : w.environments = e0 :: rest)
    (hs : propGet? e0.properties "supply" = some s)
    (hd : propGet? e0.properties "demand" = some d) :
    (Hwang.update w).environments = w.environments ∧
    ∃ e0', TestPy.update w = some { Hwang.update w with environments := (e0' :: rest) } ∧
      propGet? e0'.properties "supply"
        = some (s + (countEmployers (Hwang.update w).actors : ℚ)
            * (employedCount (Hwang.update w).actors : ℚ) * 1000) ∧
      propGet? e0'.properties "demand"
        = some (d * (99 / 100) ^ countEmployers (Hwang.update w).actors) ∧
      e0'.id = e0.id := by
  refine ⟨rfl, ?_⟩
  obtain ⟨e0', hfold, hs2, hd2, hid⟩ :=
    feedbackFold_spec (Hwang.update w).actors (employedCount (Hwang.update w).actors)
      (Hwang.update w) e0 rest s d rfl henv hs hd
  exact ⟨e0', hfold, hs2, hd2, hid⟩

/-- C2 counterexample: on a world with two `Employer` actors (as test.py's
`run_simulation` builds by its second iteration), test.py's `World.update`
multiplies the primary demand by 0.99 twice in a single tick, and hwang.py's
`World.update` — the other cited implementation — never touches it at all:
the feedback does not happen "exactly once per tick". -/
theorem C2_cex :
    (TestPy.update twoEmployerWorld).bind firstDemand
      = some (1000 * (99 / 100) * (99 / 100)) ∧
    (1000 * (99 / 100) * (99 / 100) : ℚ) ≠ 1000 * (99 / 100) ∧
    firstDemand (Hwang.update twoEmployerWorld) = some 1000 := by
  have hlt : ¬ ((7 : ℚ) / 10 < 1 / 2) := by norm_num
  have hlt2 : ¬ ((7 : ℚ) / 10 < 2⁻¹) := by norm_num
  refine ⟨?_, by norm_num, ?_⟩
  · simp [TestPy.update, feedbackLoop, feedbackStep, feedbackOne, Hwang.update,
      World.envEffects, Actor.updateEfficiency, Environment.affect_actor,
      twoEmployerWorld, marketEnv, mkEmployer, propGetD, propGet?, propHasKey,
      propSet, employedCount, firstDemand, List.filter_cons, hlt, hlt2]
  · simp [Hwang.update, World.envEffects, Actor.updateEfficiency,
      Environment.affect_actor, twoEmployerWorld, marketEnv, mkEmployer,
      propGetD, propGet?, propHasKey, propSet, firstDemand, hlt, hlt2]

/-- Witness for C2 (amended) at a one-employer world with one employed
worker. -/
theorem C2_feedback_amended_witness :
    (Hwang.update oneEmployerWorld).environments = oneEmployerWorld.environments ∧
    ∃ e0', TestPy.update oneEmployerWorld
        = some { Hwang.update oneEmployerWorld with environments := (e0' :: []) } ∧
      propGet? e0'.properties "supply"
        = some (800 + (countEmployers (Hwang.update oneEmployerWorld).actors : ℚ)
            * (employedCount (Hwang.update oneEmployerWorld).actors : ℚ) * 1000) ∧
      propGet? e0'.properties "demand"
        = some (1000 * (99 / 100) ^ countEmployers (Hwang.update oneEmployerWorld).actors) ∧
      e0'.id = marketEnv.id :=
  C2_feedback_amended oneEmployerWorld marketEnv [] 800 1000 rfl rfl rfl

/-! ### C7 -/

/-- After `updateEfficiency`, any actor holding both keys satisfies the
efficiency formula. -/
theorem updateEfficiency_spec (a : Actor)
    (hs : propHasKey a.updateEfficiency.properties "stress" = true)
    (he : propHasKey a.updateEfficiency.properties "efficiency" = true) :
    propGetD a.updateEfficiency.properties "efficiency" 0
      = max (1 / 2) (1 - (1 / 100) * propGetD a.updateEfficiency.properties "stress" 0) := by
  by_cases h : propHasKey a.properties "stress" && propHasKey a.properties "efficiency"
  · simp only [Actor.updateEfficiency, if_pos h]
    rw [propGetD_propSet_self, propGetD_propSet_ne _ _ _ _ _ (by decide)]
  · simp only [Actor.updateEfficiency, if_neg h] at hs he
    exact absurd (by simp [hs, he]) h

/-- Every actor of a world after hwang.py `World.update` (equally the first
two steps of test.py's) satisfies the efficiency formula. -/
theorem hwangUpdate_actor_spec (w : World) (a : Actor)
    (ha : a ∈ (Hwang.update w).actors)
    (hs : propHasKey a.properties "stress" = true)
    (he : propHasKey a.properties "efficiency" = true) :
    propGetD a.properties "efficiency" 0
      = max (1 / 2) (1 - (1 / 100) * propGetD a.properties "stress" 0) := by
  have hrw : (Hwang.update w).actors = w.envEffects.actors.map Actor.updateEfficiency := rfl
  rw [hrw] at ha
  obtain ⟨b, hb, rfl⟩ := List.mem_map.mp ha
  exact updateEfficiency_spec b hs he

/-- The feedback body never changes the actor list. -/
theorem feedbackOne_actors (w w' : World) (h : feedbackOne w = some w') :
    w'.actors = w.actors := by
  rcases henv : w.environments with _ | ⟨e0, rest⟩
  · simp only [feedbackOne, henv] at h
    cases h
    rfl
  · simp only [feedbackOne, henv] at h
    rcases hs : propGet? e0.properties "supply" with _ | s <;>
        rcases hd : propGet? e0.properties "demand" with _ | d <;>
        simp only [hs, hd] at h
    all_goals cases h
    rfl

/-- Folding the feedback step from a `none` accumulator stays `none`. -/
theorem feedbackFold_none (l : List Actor) : l.foldl feedbackStep none = none := by
  induction l with
  | nil => rfl
  | cons a l ih =>
    rw [List.foldl_cons]
    exact ih

/-- The whole feedback loop never changes the actor list. -/
theorem feedbackFold_actors (l : List Actor) (w w' : World)
    (h : l.foldl feedbackStep (some w) = some w') : w'.actors = w.actors := by
  induction l generalizing w with
  | nil =>
    rw [List.foldl_nil] at h
    cases h
    rfl
  | cons a l ih =>
    rw [List.foldl_cons] at h
    by_cases hk : a.kind = ActorKind.employer
    · have hstep : feedbackStep (some w) a = feedbackOne w := by simp [feedbackStep, hk]
      rw [hstep] at h
      rcases hf : feedbackOne w with _ | w1
      · rw [hf, feedbackFold_none] at h
        cases h
      · rw [hf] at h
        rw [ih w1 h, feedbackOne_actors w w1 hf]
    · have hstep : feedbackStep (some w) a = some w := by simp [feedbackStep, hk]
      rw [hstep] at h
      exact ih w h

/-- C7: after any tick (hwang.py `World.update`, or test.py `World.update`
when it completes), every actor possessing both `stress` and `efficiency`
has `efficiency = max(0.5, 1.0 - 0.01 * stress)`, and that value lies in
[0.5, 1] for every non-negative stress. -/
theorem C7_efficiency_invariant :
    (∀ (w : World) (a : Actor), a ∈ (Hwang.update w).actors →
      propHasKey a.properties "stress" = true →
      propHasKey a.properties "efficiency" = true →
      propGetD a.properties "efficiency" 0
        = max (1 / 2) (1 - (1 / 100) * propGetD a.properties "stress" 0))
    ∧ (∀ (w w' : World) (a : Actor), TestPy.update w = some w' → a ∈ w'.actors →
      propHasKey a.properties "stress" = true →
      propHasKey a.properties "efficiency" = true →
      propGetD a.properties "efficiency" 0
        = max (1 / 2) (1 - (1 / 100) * propGetD a.properties "stress" 0))
    ∧ (∀ s : ℚ, 0 ≤ s →
      1 / 2 ≤ max (1 / 2) (1 - (1 / 100) * s) ∧ max (1 / 2) (1 - (1 / 100) * s) ≤ 1) := by
  refine ⟨hwangUpdate_actor_spec, ?_, ?_⟩
  · intro w w' a hupd ha hs he
    have hacts : w'.actors = (Hwang.update w).actors :=
      feedbackFold_actors (Hwang.update w).actors (Hwang.update w) w' hupd
    rw [hacts] at ha
    exact hwangUpdate_actor_spec w a ha hs he
  · intro s hs0
    constructor
    · exact le_max_left _ _
    · refine max_le (by norm_num) (by nlinarith)

/-- Witness for C7 at a world with one fresh worker. -/
theorem C7_efficiency_invariant_witness :
    propGetD (mkWorker "w1" 25 1 3000000).properties "efficiency" 0
      = max (1 / 2) (1 - (1 / 100) * propGetD (mkWorker "w1" 25 1 3000000).properties "stress" 0) := by
  refine C7_efficiency_invariant.1 oneWorkerWorld (mkWorker "w1" 25 1 3000000) ?_ rfl rfl
  have hlt : ¬ ((7 : ℚ) / 10 < 1 / 2) := by norm_num
  have hlt2 : ¬ ((7 : ℚ) / 10 < 2⁻¹) := by norm_num
  have hmax : max ((1 : ℚ) / 2) 1 = 1 := by norm_num
  simp [Hwang.update, World.envEffects, Actor.updateEfficiency, Environment.affect_actor,
    oneWorkerWorld, marketEnv, mkWorker, propGetD, propGet?, propHasKey, propSet,
    hlt, hlt2, hmax]
  norm_num

/-! ### C8 -/

/-- `negotiateOne` never adds or removes actors and never touches the
environment list. -/
theorem negotiateOne_preserves (ei wi : ℕ) (n : ℕ) :
    ∀ (w w' : World), negotiateOne ei wi n w = some w' →
      w'.actors.length = w.actors.length ∧ w'.environments = w.environments := by
  induction n with
  | zero =>
    intro w w' h
    cases h
    exact ⟨rfl, rfl⟩
  | succ n ih =>
    intro w w' h
    rcases hw : w.actors.get? wi with _ | worker
    · simp only [negotiateOne, hw] at h
      exact Option.noConfusion h
    · rcases he : w.actors.get? ei with _ | emp
      · simp only [negotiateOne, hw, he] at h
        exact Option.noConfusion h
      · simp only [negotiateOne, hw, he] at h
        rcases ho : calculate_optimal_employment (propGetD emp.properties "property_size" 0)
            (worker.negotiate_wage w.population).2 with _ | optimal
        · simp only [ho] at h
          exact Option.noConfusion h
        · simp only [ho] at h
          rcases hp : calculate_profit
              { w with actors := w.actors.set wi (worker.negotiate_wage w.population).1 }
              (worker.negotiate_wage w.population).2 optimal with _ | profit
          · simp only [hp] at h
            exact Option.noConfusion h
          · simp only [hp] at h
            by_cases hpos : 0 < profit
            · rw [if_pos hpos] at h
              cases h
              exact ⟨by simp [List.length_set], rfl⟩
            · rw [if_neg hpos] at h
              obtain ⟨hl, henv⟩ := ih _ _ h
              refine ⟨?_, henv⟩
              rw [hl]
              simp [List.length_set]

/-- Folding negotiation rounds from a `none` accumulator stays `none`. -/
theorem negotiateFold_none (ei : ℕ) (js : List ℕ) :
    js.foldl (fun acc j => acc.bind (negotiateOne ei (ei + 1 + j) max_attempts)) none
      = none := by
  induction js with
  | nil => rfl
  | cons j js ih =>
    rw [List.foldl_cons]
    exact ih

/-- The whole per-worker negotiation loop preserves actor count and
environments. -/
theorem negotiateFold_preserves (ei : ℕ) (js : List ℕ) (w w' : World)
    (h : js.foldl (fun acc j => acc.bind (negotiateOne ei (ei + 1 + j) max_attempts))
        (some w) = some w') :
    w'.actors.length = w.actors.length ∧ w'.environments = w.environments := by
  induction js generalizing w with
  | nil =>
    rw [List.foldl_nil] at h
    cases h
    exact ⟨rfl, rfl⟩
  | cons j js ih =>
    rw [List.foldl_cons] at h
    have hstep : (Option.bind (some w) (negotiateOne ei (ei + 1 + j) max_attempts))
        = negotiateOne ei (ei + 1 + j) max_attempts w := rfl
    rw [hstep] at h
    rcases hn : negotiateOne ei (ei + 1 + j) max_attempts w with _ | w1
    · rw [hn, negotiateFold_none] at h
      exact Option.noConfusion h
    · rw [hn] at h
      obtain ⟨hl, he⟩ := ih w1 h
      obtain ⟨hl2, he2⟩ := negotiateOne_preserves ei (ei + 1 + j) max_attempts w w1 hn
      exact ⟨hl.trans hl2, he.trans he2⟩

theorem manifestSelf_id (e e1 : Environment) (mt : String)
    (h : e.manifestSelf mt = some e1) : e1.id = e.id := by
  by_cases hm : mt = "competition_rise"
  · simp only [Environment.manifestSelf, if_pos hm] at h
    rcases hc : propGet? e.properties "competition" with _ | c
    · simp only [hc] at h
      exact Option.noConfusion h
    · simp only [hc] at h
      cases h
      rfl
  · simp only [Environment.manifestSelf, if_neg hm] at h
    cases h
    rfl

theorem affectEnvironment_id (e t t1 : Environment)
    (h : e.affect_environment t = some t1) : t1.id = t.id := by
  by_cases hm : "competition_rise" ∈ e.manifestations
  · simp only [Environment.affect_environment, if_pos hm] at h
    rcases hd : propGet? t.properties "demand" with _ | d
    · simp only [hd] at h
      exact Option.noConfusion h
    · simp only [hd] at h
      cases h
      rfl
  · simp only [Environment.affect_environment, if_neg hm] at h
    cases h
    rfl

/-- `manifest` with a target preserves both environments' identifiers. -/
theorem manifest_ids (e : Environment) (mt : String) (t : Environment)
    (e' : Environment) (t' : Option Environment)
    (h : e.manifest mt (some t) = some (e', t')) :
    e'.id = e.id ∧ (t'.getD t).id = t.id := by
  rcases hms : e.manifestSelf mt with _ | e1
  · simp only [Environment.manifest, hms] at h
    exact Option.noConfusion h
  · simp only [Environment.manifest, hms] at h
    rcases hae : e1.affect_environment t with _ | t1
    · simp only [hae] at h
      exact Option.noConfusion h
    · simp only [hae, Option.some.injEq, Prod.mk.injEq] at h
      obtain ⟨h1, h2⟩ := h
      subst h1
      subst h2
      exact ⟨manifestSelf_id e e1 mt hms, affectEnvironment_id e1 t t1 hae⟩

/-- The `env1.manifest(...)` step of the tick keeps the actor list and the
environment identifiers. -/
theorem manifestStep_spec (w w' : World) (h : manifestStep w = some w') :
    w'.actors = w.actors ∧
    w'.environments.map (fun e => e.id) = w.environments.map (fun e => e.id) := by
  rcases henv : w.environments with _ | ⟨e1, rest1⟩
  · simp only [manifestStep, henv] at h
    exact Option.noConfusion h
  · rcases rest1 with _ | ⟨e2, rest⟩
    · simp only [manifestStep, henv] at h
      exact Option.noConfusion h
    · simp only [manifestStep, henv] at h
      rcases hm : e1.manifest "competition_rise" (some e2) with _ | ⟨e1p, t⟩
      · simp only [hm] at h
        exact Option.noConfusion h
      · simp only [hm] at h
        cases h
        obtain ⟨hid1, hid2⟩ := manifest_ids e1 "competition_rise" e2 e1p t hm
        exact ⟨rfl, by simp [henv, hid1, hid2]⟩

theorem foldMap_length (envs : List Environment) (acts : List Actor) :
    (envs.foldl (fun as e => as.map e.affect_actor) acts).length = acts.length := by
  induction envs generalizing acts with
  | nil => rfl
  | cons e envs ih =>
    rw [List.foldl_cons, ih, List.length_map]

/-- hwang.py `World.update` preserves the number of actors. -/
theorem hwangUpdate_actors_length (w : World) :
    (Hwang.update w).actors.length = w.actors.length := by
  show (w.envEffects.actors.map Actor.updateEfficiency).length = w.actors.length
  rw [List.length_map]
  exact foldMap_length w.environments w.actors

/-- The setup step adds exactly one employer and `worker_count` workers. -/
theorem tickSetup_length (iw : ℚ) (wc : ℕ) (w : World) :
    (Hwang.tickSetup iw wc w).actors.length = w.actors.length + 1 + wc := by
  simp [Hwang.tickSetup]
  omega

/-- C8 amended: in `run_simulation`, the two Environments are registered before
the tick loop and no Environment is added or removed during it, but the Actor
collection does not persist unchanged: every tick iteration that completes
adds exactly one new Employer and `worker_count` new Workers to the World. -/
theorem C8_membership_amended (iw : ℚ) (wc : ℕ) (w w' : World)
    (h : Hwang.tick iw wc w = some w') :
    w'.actors.length = w.actors.length + 1 + wc ∧
    w'.environments.map (fun e => e.id) = w.environments.map (fun e => e.id) := by
  simp only [Hwang.tick] at h
  rcases hm : manifestStep (Hwang.tickSetup iw wc w) with _ | w3
  · simp only [hm] at h
    exact Option.noConfusion h
  · simp only [hm] at h
    rcases hf : (List.range wc).foldl
        (fun acc j => acc.bind (negotiateOne w.actors.length (w.actors.length + 1 + j) max_attempts))
        (some w3) with _ | w4
    · simp only [hf] at h
      exact Option.noConfusion h
    · simp only [hf] at h
      cases h
      obtain ⟨hma, hme⟩ := manifestStep_spec _ w3 hm
      obtain ⟨hfl, hfe⟩ := negotiateFold_preserves w.actors.length (List.range wc) w3 w4 hf
      constructor
      · rw [hwangUpdate_actors_length, hfl, hma, tickSetup_length]
      · have henvs : (Hwang.update w4).environments = w4.environments := rfl
        have hse : (Hwang.tickSetup iw wc w).environments = w.environments := rfl
        rw [henvs, hfe, hme, hse]

/-- C8 counterexample: `run_simulation(0.5, 3000000, 1, 0, worker_count=0)`
starts its tick loop on a World with no actors and ends with one (the
Employer created and added inside the loop body): actors are added during the
tick loop, not before it. -/
theorem C8_cex :
    (Hwang.initWorld (1 / 2) 0).actors.length = 0 ∧
    (Hwang.run (1 / 2) 3000000 1 0 0).map (fun w => w.actors.length) = some 1 := by
  refine ⟨rfl, ?_⟩
  have h1 : ¬ ((7 : ℚ) / 10 < 1 / 2 + 1 / 10) := by norm_num
  have h2 : ¬ ((7 : ℚ) / 10 < 3 / 10) := by norm_num
  have h1b : ¬ ((7 : ℚ) / 10 < 2⁻¹ + 10⁻¹) := by norm_num
  have h2b : ¬ ((7 : ℚ) / 10 < 3 * 10⁻¹) := by norm_num
  simp [Hwang.run, Hwang.tick, Hwang.tickSetup, Hwang.initWorld, manifestStep,
    Environment.manifest, Environment.manifestSelf, Environment.affect_environment,
    Hwang.update, World.envEffects, Actor.updateEfficiency, Environment.affect_actor,
    mkEmployer, propGetD, propGet?, propHasKey, propSet, List.range_succ, h1, h2, h1b, h2b]

/-- Witness for C8 (amended): the single tick of that run goes from 0 actors
to 1 = 0 + 1 + 0, with the environment identifiers unchanged. -/
theorem C8_membership_amended_witness :
    c8FinalWorld.actors.length = (Hwang.initWorld (1 / 2) 0).actors.length + 1 + 0 ∧
    c8FinalWorld.environments.map (fun e => e.id)
      = (Hwang.initWorld (1 / 2) 0).environments.map (fun e => e.id) :=
  C8_membership_amended 3000000 0 (Hwang.initWorld (1 / 2) 0) c8FinalWorld (by
    have h1 : ¬ ((7 : ℚ) / 10 < 1 / 2 + 1 / 10) := by norm_num
    have h2 : ¬ ((7 : ℚ) / 10 < 3 / 10) := by norm_num
    have h1b : ¬ ((7 : ℚ) / 10 < 2⁻¹ + 10⁻¹) := by norm_num
    have h2b : ¬ ((7 : ℚ) / 10 < 3 * 10⁻¹) := by norm_num
    simp [Hwang.tick, Hwang.tickSetup, Hwang.initWorld, c8FinalWorld, manifestStep,
      Environment.manifest, Environment.manifestSelf, Environment.affect_environment,
      Hwang.update, World.envEffects, Actor.updateEfficiency, Environment.affect_actor,
      mkEmployer, propGetD, propGet?, propHasKey, propSet, h1, h2, h1b, h2b])

end LaborSim
